import Mathlib

/-!
Verification of the AI-Trainer-Teacher repository against its
natural-language specification.

Part 1 embeds the code that is present in the source tree:
the admin route guard (src/app/guards/admin.guard.ts) and the
recruiter auth service (src/app/services/recruiter-auth.service.ts).
Side-effecting Angular/Firebase calls are modelled with the command
pattern: each operation returns the list of domain effects it performs
(document-store writes, signal updates, navigations, alerts), with the
results of external calls (Firebase popup result, store lookups) passed
in as parameters.

Part 2 embeds the Exam Attempt Engine.  The spec states that the
component code implementing the exam flow is not present in the supplied
source, so the engine is modelled from the spec (sections 3, 4, 6, 7 of
spec.md): eligibility evaluation, seeded shuffling, timer-driven
transitions, answer submission and final scoring.
-/

namespace AITrainer

/-! ### Admin guard (src/app/guards/admin.guard.ts) -/

/-- The slice of a Firebase `User` the guard inspects: `email` is
`string | null` in the Firebase SDK, hence `Option String` here. -/
structure FbUser where
  uid : String
  email : Option String
deriving Repr, DecidableEq

/-- Outcome of a `CanActivateFn` activation: the boolean it emits and the
route it navigated to, if any. -/
structure GuardOutcome where
  allowed : Bool
  navigatedTo : Option (List String)
deriving Repr, DecidableEq

/-- `adminGuard`: emits `true` when a user is logged in with the
hard-coded email; otherwise calls `router.navigate(['/'])` and emits
`false`. -/
def adminGuard (user : Option FbUser) : GuardOutcome :=
  match user with
  | some u =>
      if u.email = some "martin@martin.com" then
        { allowed := true, navigatedTo := none }
      else
        { allowed := false, navigatedTo := some ["/"] }
  | none => { allowed := false, navigatedTo := some ["/"] }

/-! ### Recruiter auth service (src/app/services/recruiter-auth.service.ts) -/

/-- The Recruiter model (src/models/recruiter.ts); optional fields become
`Option`. -/
structure Recruiter where
  recruiterUID : String
  email : String
  username : String
  displayname : Option String := none
  lastname : Option String := none
  id : Option String := none
  subscriptionLevel : Nat
  businessName : Option String := none
  cellphone : Option String := none
  whatsapp : Option String := none
  allowWhatsapp : Option Bool := none
  useExams : Option Bool := none
deriving Repr, DecidableEq

/-- Domain effects performed by the auth service.  `console.log` calls and
the `loading` spinner signal are UI-only and not modelled. -/
inductive AuthEffect where
  | addUserWithId (r : Recruiter) (docId : String)
  | setRecruiterSig (r : Option Recruiter)
  | navigate (route : List String)
  | alertMsg (msg : String)
deriving Repr, DecidableEq

/-- The recruiter record literal built inside `addRegisterUsed`. -/
def mkRegisteredRecruiter (email username userUid : String) : Recruiter :=
  { email := email
    username := username
    recruiterUID := userUid
    subscriptionLevel := 4 }

/-- `addRecruiterAsCandidate`: the candidate-store write is commented out
in the source, so the only remaining statement is a `console.log` and the
method performs no domain effect. -/
def addRecruiterAsCandidate (_r : Recruiter) : List AuthEffect := []

/-- `addRegisterUsed(email, username, userUid)`: builds the recruiter
record, writes it to the store with the uid as document id, updates the
recruiter signal, then calls `addRecruiterAsCandidate`. -/
def addRegisterUsed (email username userUid : String) : List AuthEffect :=
  let r := mkRegisteredRecruiter email username userUid
  [AuthEffect.addUserWithId r userUid, AuthEffect.setRecruiterSig (some r)]
    ++ addRecruiterAsCandidate r

/-- `register(email, username, password)`: Firebase account creation and
`updateProfile` are external; `responseUid` is the uid Firebase returned,
after which the service calls `addRegisterUsed`. -/
def register (email username _password responseUid : String) : List AuthEffect :=
  addRegisterUsed email username responseUid

/-- The slice of the Google popup result the service reads. -/
structure GoogleUser where
  uid : String
  email : String
  displayName : String
deriving Repr, DecidableEq

/-- `loginWithGoogle()`: `result` is the popup outcome (`none` when
`result.user` is absent), `existing` is what `getOneRecruiter(userUid)`
returned, and `accountCreatedOk` is the translated alert text.  With an
existing recruiter it only navigates; otherwise it registers the new
recruiter, alerts, and navigates. -/
def loginWithGoogle (result : Option GoogleUser) (existing : Option Recruiter)
    (accountCreatedOk : String) : List AuthEffect :=
  match result with
  | none => []
  | some gu =>
      match existing with
      | some _ => [AuthEffect.navigate ["recruiter"]]
      | none =>
          addRegisterUsed gu.email gu.displayName gu.uid
            ++ [AuthEffect.alertMsg (gu.displayName ++ " " ++ accountCreatedOk),
                AuthEffect.navigate ["recruiter"]]

/-! ### Exam Attempt Engine (modelled from the spec) -/

/-- Modelled from the spec: an exam Option (spec.md section 3); the
component code implementing the exam flow is missing from the supplied
source. -/
structure ExamOption where
  text : String
  isCorrect : Bool
deriving Repr, DecidableEq

/-- Modelled from the spec: a Question with its ordered options
(spec.md section 3). -/
structure Question where
  text : String
  options : List ExamOption
deriving Repr, DecidableEq

/-- Modelled from the spec: an ExamDefinition (spec.md section 3).
`timeToDoTheExam` and `timeToWait` are in minutes; timestamps elsewhere
are in seconds. -/
structure ExamDefinition where
  id : String
  title : String
  questions : List Question
  passingPercentage : Nat
  timeToDoTheExam : Nat
  timeToWait : Nat
deriving Repr, DecidableEq

/-- Modelled from the spec: validity of one Question — between 2 and 6
options, exactly one of them correct (spec.md section 3). -/
def validQuestion (q : Question) : Bool :=
  decide (2 ≤ q.options.length) && decide (q.options.length ≤ 6)
    && decide (q.options.countP (fun o => o.isCorrect) = 1)

/-- Modelled from the spec: a valid ExamDefinition has only valid
questions. -/
def validExam (ed : ExamDefinition) : Bool :=
  ed.questions.all validQuestion

/-- Modelled from the spec: attempt states (spec.md section 4 state
machine). -/
inductive AttemptState where
  | notStarted
  | inProgress
  | timedOut
  | completed
deriving Repr, DecidableEq

/-- Modelled from the spec: an Attempt (spec.md section 3).  `answers` is
the ordered sequence of `{questionIndex, selectedOptionIndex}` pairs of
the persisted layout (section 6); `shuffledOptionOrder` is indexed by
canonical question index. -/
structure Attempt where
  userId : String
  examId : String
  state : AttemptState
  startedAt : Nat
  shuffledQuestionOrder : List Nat
  shuffledOptionOrder : List (List Nat)
  answers : List (Nat × Nat)
  questionsAnswered : Nat
  correctAnswers : Nat
  passed : Option Bool
  finalizedAt : Option Nat
deriving Repr, DecidableEq

/-- Modelled from the spec: a linear-congruential step for the seeded
generator driving the reproducible permutation (spec.md section 4.1,
start/resume). -/
def lcgNext (s : Nat) : Nat :=
  (s * 1103515245 + 12345) % 4294967296

/-- Modelled from the spec: selection shuffle driven by the seeded
generator — repeatedly draw an index from the generator and move that
element to the front of the output.  `fuel` starts at the list length. -/
def shuffleGo : Nat → Nat → List Nat → List Nat
  | 0, _, _ => []
  | fuel + 1, seed, l =>
      if h : l.length = 0 then []
      else
        let s := lcgNext seed
        let i := s % l.length
        l.get ⟨i, Nat.mod_lt _ (Nat.pos_of_ne_zero h)⟩ :: shuffleGo fuel s (l.eraseIdx i)

/-- Modelled from the spec: the reproducible pseudo-random permutation of
a list of indices, a pure function of the seed. -/
def shuffle (seed : Nat) (l : List Nat) : List Nat :=
  shuffleGo l.length seed l

/-- Modelled from the spec: derive a per-question sub-seed so each
question's options get an independent permutation from the same seed. -/
def deriveSeed (seed salt : Nat) : Nat :=
  lcgNext (seed + salt * 31)

/-- Modelled from the spec: `start(examDef, userId, seed, now)` for a
fresh attempt (spec.md section 4.1): shuffled question order over
`[0, N)`, per-question shuffled option orders, state `InProgress`,
`startedAt = now`, empty answers. -/
def start (ed : ExamDefinition) (userId : String) (seed now : Nat) : Attempt :=
  { userId := userId
    examId := ed.id
    state := AttemptState.inProgress
    startedAt := now
    shuffledQuestionOrder := shuffle seed (List.range ed.questions.length)
    shuffledOptionOrder :=
      ed.questions.enum.map
        (fun p => shuffle (deriveSeed seed (p.1 + 1)) (List.range p.2.options.length))
    answers := []
    questionsAnswered := 0
    correctAnswers := 0
    passed := none
    finalizedAt := none }

/-- Modelled from the spec: errors of `submit` (spec.md section 7);
`expiredAttempt` is not a pure error — it carries the attempt after its
automatic transition to `TimedOut`. -/
inductive SubmitError where
  | invalidState
  | expiredAttempt (timedOutAttempt : Attempt)
  | outOfRange
deriving Repr, DecidableEq

/-- Modelled from the spec: document-store side effects described by a
mutating operation (command pattern, spec.md section 9). -/
inductive StoreEffect where
  | putAttempt (a : Attempt)
deriving Repr, DecidableEq

/-- Modelled from the spec: elapsed-time check, always recomputed from
`startedAt` and the clock (spec.md section 4.1 state machine). -/
def expired (ed : ExamDefinition) (a : Attempt) (now : Nat) : Bool :=
  decide (now - a.startedAt > ed.timeToDoTheExam * 60)

/-- Modelled from the spec: the automatic `InProgress → TimedOut`
transition. -/
def markTimedOut (a : Attempt) : Attempt :=
  { a with state := AttemptState.timedOut }

/-- Modelled from the spec: look up the recorded answer for a question
index. -/
def lookupAnswer : List (Nat × Nat) → Nat → Option Nat
  | [], _ => none
  | p :: rest, q => if p.1 = q then some p.2 else lookupAnswer rest q

/-- Modelled from the spec: record or overwrite the mapping for a
question index (re-answering overwrites, not appends). -/
def recordAnswer : List (Nat × Nat) → Nat → Nat → List (Nat × Nat)
  | [], q, o => [(q, o)]
  | p :: rest, q, o =>
      if p.1 = q then (q, o) :: rest else p :: recordAnswer rest q o

/-- Modelled from the spec: number of options of the question shown at a
shuffled question position. -/
def optionCount (a : Attempt) (questionIndex : Nat) : Nat :=
  (a.shuffledOptionOrder.getD (a.shuffledQuestionOrder.getD questionIndex 0) []).length

/-- Modelled from the spec: the successful-submit update — overwrite the
answer, increment `questionsAnswered` only the first time this question
index is answered. -/
def submitUpdate (a : Attempt) (questionIndex selectedOptionIndex : Nat) : Attempt :=
  { a with
    answers := recordAnswer a.answers questionIndex selectedOptionIndex
    questionsAnswered :=
      a.questionsAnswered +
        (if (lookupAnswer a.answers questionIndex).isNone then 1 else 0) }

/-- Modelled from the spec: `submit(attempt, questionIndex,
selectedOptionIndex, now)` (spec.md section 4.1); the exam definition
supplies `timeToDoTheExam`.  Order of checks: state, expiry (with the
automatic TimedOut transition and refusal of the write), bounds; on
success the updated attempt is persisted. -/
def submit (ed : ExamDefinition) (a : Attempt)
    (questionIndex selectedOptionIndex now : Nat) :
    Except SubmitError (Attempt × List StoreEffect) :=
  if a.state ≠ AttemptState.inProgress then
    Except.error SubmitError.invalidState
  else if expired ed a now = true then
    Except.error (SubmitError.expiredAttempt (markTimedOut a))
  else if questionIndex < a.shuffledQuestionOrder.length
      ∧ selectedOptionIndex < optionCount a questionIndex then
    Except.ok (submitUpdate a questionIndex selectedOptionIndex,
      [StoreEffect.putAttempt (submitUpdate a questionIndex selectedOptionIndex)])
  else
    Except.error SubmitError.outOfRange

/-- Modelled from the spec: is a recorded `(questionIndex,
selectedOptionIndex)` pair correct once un-shuffled back to canonical
indices (spec.md section 4.1, finalization)? -/
def isAnswerCorrect (ed : ExamDefinition) (a : Attempt)
    (questionIndex selectedOptionIndex : Nat) : Bool :=
  let canonQ := a.shuffledQuestionOrder.getD questionIndex 0
  let canonOpt := (a.shuffledOptionOrder.getD canonQ []).getD selectedOptionIndex 0
  (((ed.questions.getD canonQ { text := "", options := [] }).options.getD
      canonOpt { text := "", isCorrect := false })).isCorrect

/-- Modelled from the spec: count of correct answers — only answered
questions can contribute, unanswered ones count as incorrect. -/
def countCorrect (ed : ExamDefinition) (a : Attempt) : Nat :=
  a.answers.countP (fun p => isAnswerCorrect ed a p.1 p.2)

/-- Modelled from the spec: `passed = score ≥ passingPercentage`
(inclusive), expressed without division as
`correct * 100 ≥ passingPercentage * numberOfQuestions`. -/
def computePassed (ed : ExamDefinition) (correct : Nat) : Bool :=
  decide (ed.passingPercentage * ed.questions.length ≤ correct * 100)

/-- Modelled from the spec: error of `finish` outside its allowed
states. -/
inductive FinishError where
  | invalidState
deriving Repr, DecidableEq

/-- Modelled from the spec: the finalized attempt value. -/
def finalizeAttempt (ed : ExamDefinition) (a : Attempt) (now : Nat) : Attempt :=
  { a with
    state := AttemptState.completed
    correctAnswers := countCorrect ed a
    passed := some (computePassed ed (countCorrect ed a))
    finalizedAt := some now }

/-- Modelled from the spec: `finish(attempt, examDef, now)` (spec.md
section 4.1): allowed from `InProgress` or `TimedOut`; idempotent on a
`Completed` attempt — returned unchanged with no store write. -/
def finish (ed : ExamDefinition) (a : Attempt) (now : Nat) :
    Except FinishError (Attempt × List StoreEffect) :=
  match a.state with
  | AttemptState.completed => Except.ok (a, [])
  | AttemptState.inProgress =>
      Except.ok (finalizeAttempt ed a now,
        [StoreEffect.putAttempt (finalizeAttempt ed a now)])
  | AttemptState.timedOut =>
      Except.ok (finalizeAttempt ed a now,
        [StoreEffect.putAttempt (finalizeAttempt ed a now)])
  | AttemptState.notStarted => Except.error FinishError.invalidState

/-- Modelled from the spec: eligibility verdicts (spec.md section 3). -/
inductive EligibilityVerdict where
  | eligible
  | alreadyPassed
  | cooldownActive (remainingSeconds : Nat)
  | attemptInProgress (a : Attempt)
deriving Repr, DecidableEq

/-- Modelled from the spec: most recent completed attempt by
`finalizedAt` descending, later insertion order winning ties. -/
def mostRecentCompleted (history : List Attempt) : Option Attempt :=
  history.foldl
    (fun best a =>
      if a.state = AttemptState.completed then
        match best with
        | none => some a
        | some b =>
            if b.finalizedAt.getD 0 ≤ a.finalizedAt.getD 0 then some a else some b
      else best)
    none

/-- Modelled from the spec: `evaluate(userId, examId, history, now)`
(spec.md section 4.1); the exam definition supplies `timeToWait`.  Rules
in order: any passed attempt → AlreadyPassed; an InProgress attempt →
AttemptInProgress; active cooldown → CooldownActive(remaining seconds);
otherwise Eligible. -/
def evaluate (ed : ExamDefinition) (_userId _examId : String)
    (history : List Attempt) (now : Nat) : EligibilityVerdict :=
  if history.any (fun a => decide (a.passed = some true)) then
    EligibilityVerdict.alreadyPassed
  else
    match history.find? (fun a => decide (a.state = AttemptState.inProgress)) with
    | some a => EligibilityVerdict.attemptInProgress a
    | none =>
        match mostRecentCompleted history with
        | some b =>
            let deadline := b.finalizedAt.getD 0 + ed.timeToWait * 60
            if now < deadline then EligibilityVerdict.cooldownActive (deadline - now)
            else EligibilityVerdict.eligible
        | none => EligibilityVerdict.eligible

/-! ### Concrete sample data used by the witnesses -/

/-- A small valid exam: one question with two options, the first correct;
passing percentage 70, 30 minutes to do the exam, 60 minutes cooldown. -/
def sampleExam : ExamDefinition :=
  { id := "ex1"
    title := "Sample"
    questions := [{ text := "q0", options := [{ text := "a", isCorrect := true },
                                              { text := "b", isCorrect := false }] }]
    passingPercentage := 70
    timeToDoTheExam := 30
    timeToWait := 60 }

/-- A fresh attempt at the sample exam, started at time 0 with seed 1. -/
def startA : Attempt := start sampleExam "u" 1 0

/-- The attempt after answering question position 0 with option 0. -/
def stepA : Attempt := submitUpdate startA 0 0

/-- The attempt after re-answering question position 0 with option 1. -/
def stepB : Attempt := submitUpdate stepA 0 1

/-- A completed, passed attempt finalized at time 100. -/
def passedAttempt : Attempt :=
  { userId := "u"
    examId := "ex1"
    state := AttemptState.completed
    startedAt := 0
    shuffledQuestionOrder := [0]
    shuffledOptionOrder := [[0, 1]]
    answers := [(0, 0)]
    questionsAnswered := 1
    correctAnswers := 1
    passed := some true
    finalizedAt := some 100 }

/-! ### Helper lemmas -/

/-- Moving the element at index `i` to the front permutes the list. -/
theorem get_cons_eraseIdx_perm :
    ∀ (l : List Nat) (i : Nat) (h : i < l.length),
      List.Perm (l.get ⟨i, h⟩ :: l.eraseIdx i) l
  | _ :: _, 0, _ => by simp
  | a :: l, i + 1, h => by
      have hi : i < l.length := Nat.lt_of_succ_lt_succ h
      have ih := get_cons_eraseIdx_perm l i hi
      simp only [List.get, List.eraseIdx]
      exact (List.Perm.swap a (l.get ⟨i, hi⟩) (l.eraseIdx i)).trans (ih.cons a)

/-- The selection shuffle permutes its input when given enough fuel. -/
theorem shuffleGo_perm :
    ∀ (fuel seed : Nat) (l : List Nat), l.length ≤ fuel →
      List.Perm (shuffleGo fuel seed l) l
  | 0, _, l, hle => by
      have hnil : l = [] := List.length_eq_zero.mp (Nat.le_zero.mp hle)
      simp [hnil, shuffleGo]
  | fuel + 1, seed, l, hle => by
      simp only [shuffleGo]
      by_cases h : l.length = 0
      · rw [dif_pos h]
        have hnil : l = [] := List.length_eq_zero.mp h
        simp [hnil]
      · rw [dif_neg h]
        have hpos : 0 < l.length := Nat.pos_of_ne_zero h
        have hilt : lcgNext seed % l.length < l.length := Nat.mod_lt _ hpos
        have hlen : (l.eraseIdx (lcgNext seed % l.length)).length ≤ fuel := by
          have h1 := List.length_eraseIdx_add_one hilt
          omega
        exact ((shuffleGo_perm fuel (lcgNext seed) _ hlen).cons _).trans
          (get_cons_eraseIdx_perm l _ hilt)

/-- The seeded shuffle is a permutation. -/
theorem shuffle_perm (seed : Nat) (l : List Nat) :
    List.Perm (shuffle seed l) l :=
  shuffleGo_perm l.length seed l (Nat.le_refl _)

/-- Looking up a question just recorded yields the recorded option. -/
theorem lookup_recordAnswer_self (ans : List (Nat × Nat)) (q o : Nat) :
    lookupAnswer (recordAnswer ans q o) q = some o := by
  induction ans with
  | nil => simp [recordAnswer, lookupAnswer]
  | cons p rest ih =>
      by_cases h : p.1 = q
      · simp [recordAnswer, lookupAnswer, h]
      · simp [recordAnswer, lookupAnswer, h, ih]

/-- Overwriting an already-recorded question does not grow the list. -/
theorem recordAnswer_length_of_some (ans : List (Nat × Nat)) (q o v : Nat)
    (h : lookupAnswer ans q = some v) :
    (recordAnswer ans q o).length = ans.length := by
  induction ans with
  | nil => simp [lookupAnswer] at h
  | cons p rest ih =>
      by_cases hp : p.1 = q
      · simp [recordAnswer, hp]
      · simp only [lookupAnswer, if_neg hp] at h
        simp [recordAnswer, hp, ih h]

/-- Inversion of a successful `submit`. -/
theorem submit_ok_inv {ed : ExamDefinition} {a : Attempt} {q o now : Nat}
    {r : Attempt × List StoreEffect}
    (h : submit ed a q o now = Except.ok r) :
    r = (submitUpdate a q o, [StoreEffect.putAttempt (submitUpdate a q o)]) := by
  unfold submit at h
  split at h
  · exact Except.noConfusion h
  · split at h
    · exact Except.noConfusion h
    · split at h
      · injection h with h2
        exact h2.symm
      · exact Except.noConfusion h

/-! ### Claim theorems -/

/-- C1: `adminGuard` emits `true` exactly when an authenticated user is
present whose email is the literal `martin@martin.com`; in every other
case it navigates to the root route and emits `false`. -/
theorem adminGuard_access (u : Option FbUser) :
    (adminGuard u = { allowed := true, navigatedTo := none }
      ↔ ∃ usr, u = some usr ∧ usr.email = some "martin@martin.com")
    ∧ ((¬ ∃ usr, u = some usr ∧ usr.email = some "martin@martin.com") →
        adminGuard u = { allowed := false, navigatedTo := some ["/"] }) := by
  cases u with
  | none => simp [adminGuard]
  | some usr =>
      by_cases h : usr.email = some "martin@martin.com"
      · simp [adminGuard, h]
      · simp [adminGuard, h]

/-- Witness for C1: the admin email is granted access. -/
theorem adminGuard_access_witness :
    adminGuard (some { uid := "id1", email := some "martin@martin.com" })
      = { allowed := true, navigatedTo := none } :=
  (adminGuard_access (some { uid := "id1", email := some "martin@martin.com" })).1.mpr
    ⟨{ uid := "id1", email := some "martin@martin.com" }, rfl, rfl⟩

/-- C4: the shuffled question order and the per-question shuffled option
orders produced by `start` are functions of the exam definition and the
seed alone — any two calls with the same seed (whatever the user and the
clock) produce identical shuffles. -/
theorem start_shuffle_deterministic (ed : ExamDefinition) (u1 u2 : String)
    (seed n1 n2 : Nat) :
    (start ed u1 seed n1).shuffledQuestionOrder
        = (start ed u2 seed n2).shuffledQuestionOrder
    ∧ (start ed u1 seed n1).shuffledOptionOrder
        = (start ed u2 seed n2).shuffledOptionOrder :=
  ⟨rfl, rfl⟩

/-- C6: for a valid exam definition with `N` questions, a fresh `start`
produces a `shuffledQuestionOrder` that is a permutation of `[0, N)` —
same multiset, no duplicates, no omissions. -/
theorem start_questionOrder_perm (ed : ExamDefinition) (u : String)
    (seed now N : Nat) (_hval : validExam ed = true)
    (hN : ed.questions.length = N) :
    List.Perm (start ed u seed now).shuffledQuestionOrder (List.range N) := by
  subst hN
  exact shuffle_perm seed (List.range ed.questions.length)

/-- Witness for C6 at the sample exam. -/
theorem start_questionOrder_perm_witness :
    List.Perm (start sampleExam "u" 1 0).shuffledQuestionOrder (List.range 1) :=
  start_questionOrder_perm sampleExam "u" 1 0 1 (by decide) rfl

/-- C3: on an `InProgress` attempt, a `submit` whose elapsed time exceeds
`timeToDoTheExam` minutes records nothing and reports `ExpiredAttempt`
carrying the attempt transitioned to `TimedOut` with its answers
untouched; a `submit` within the limit (inclusive) and in bounds
succeeds. -/
theorem submit_timeout (ed : ExamDefinition) (a : Attempt) (q o now : Nat)
    (hstate : a.state = AttemptState.inProgress) :
    (now - a.startedAt > ed.timeToDoTheExam * 60 →
      submit ed a q o now
          = Except.error (SubmitError.expiredAttempt (markTimedOut a))
        ∧ (markTimedOut a).state = AttemptState.timedOut
        ∧ (markTimedOut a).answers = a.answers)
    ∧ (now - a.startedAt ≤ ed.timeToDoTheExam * 60 →
        q < a.shuffledQuestionOrder.length →
        o < optionCount a q →
        submit ed a q o now
          = Except.ok (submitUpdate a q o,
              [StoreEffect.putAttempt (submitUpdate a q o)])) := by
  constructor
  · intro hexp
    refine ⟨?_, rfl, rfl⟩
    unfold submit
    rw [if_neg (by simp [hstate]), if_pos (by simp [expired, hexp])]
  · intro hle hq ho
    unfold submit
    rw [if_neg (by simp [hstate]), if_neg (by simp [expired]; omega),
      if_pos ⟨hq, ho⟩]

/-- Witness for C3: with a 30-minute limit, a submit at 31 minutes is
rejected with the TimedOut transition, and a submit at 29 minutes
succeeds. -/
theorem submit_timeout_witness :
    submit sampleExam startA 0 0 1860
        = Except.error (SubmitError.expiredAttempt (markTimedOut startA))
    ∧ submit sampleExam startA 0 0 1740
        = Except.ok (submitUpdate startA 0 0,
            [StoreEffect.putAttempt (submitUpdate startA 0 0)]) :=
  ⟨((submit_timeout sampleExam startA 0 0 1860 rfl).1 (by decide)).1,
   (submit_timeout sampleExam startA 0 0 1740 rfl).2 (by decide) (by decide)
     (by decide)⟩

/-- C8: re-answering a question overwrites the previous selection instead
of appending and leaves `questionsAnswered` unchanged;
`questionsAnswered` is incremented only the first time a question index
is answered. -/
theorem submit_reanswer_overwrites (ed : ExamDefinition) (a a1 a2 : Attempt)
    (q o1 o2 n1 n2 : Nat) (e1 e2 : List StoreEffect)
    (h1 : submit ed a q o1 n1 = Except.ok (a1, e1))
    (h2 : submit ed a1 q o2 n2 = Except.ok (a2, e2)) :
    lookupAnswer a2.answers q = some o2
    ∧ a2.questionsAnswered = a1.questionsAnswered
    ∧ a2.answers.length = a1.answers.length
    ∧ (lookupAnswer a.answers q = none →
        a1.questionsAnswered = a.questionsAnswered + 1) := by
  have g1 := submit_ok_inv h1
  have g2 := submit_ok_inv h2
  injection g1 with ha1 he1
  injection g2 with ha2 he2
  subst ha1
  subst ha2
  refine ⟨?_, ?_, ?_, ?_⟩
  · simp [submitUpdate, lookup_recordAnswer_self]
  · simp [submitUpdate, lookup_recordAnswer_self]
  · simp only [submitUpdate]
    exact recordAnswer_length_of_some _ _ _ _ (lookup_recordAnswer_self _ _ _)
  · intro hn
    simp [submitUpdate, hn]

/-- Witness for C8: answering question 0 with option 0 then option 1
leaves the recorded answer at 1, the answer list the same length, and
`questionsAnswered` incremented only once. -/
theorem submit_reanswer_overwrites_witness :
    lookupAnswer stepB.answers 0 = some 1
    ∧ stepB.questionsAnswered = stepA.questionsAnswered
    ∧ stepB.answers.length = stepA.answers.length
    ∧ (lookupAnswer startA.answers 0 = none →
        stepA.questionsAnswered = startA.questionsAnswered + 1) :=
  submit_reanswer_overwrites sampleExam startA stepA stepB 0 0 1 5 6
    [StoreEffect.putAttempt stepA] [StoreEffect.putAttempt stepB]
    rfl rfl

/-- Inversion of a successful `finish` from a non-Completed state. -/
theorem finish_ok_inv {ed : ExamDefinition} {a : Attempt} {now : Nat}
    {r : Attempt × List StoreEffect}
    (hs : a.state ≠ AttemptState.completed)
    (h : finish ed a now = Except.ok r) :
    r = (finalizeAttempt ed a now,
      [StoreEffect.putAttempt (finalizeAttempt ed a now)]) := by
  cases hst : a.state with
  | notStarted => simp [finish, hst] at h
  | inProgress =>
      simp only [finish, hst] at h
      injection h with h2
      exact h2.symm
  | timedOut =>
      simp only [finish, hst] at h
      injection h with h2
      exact h2.symm
  | completed => exact absurd hst hs

/-- C2: `finish` computes `correctAnswers` by un-shuffling each answered
question's selection back to the canonical option index and comparing it
with the canonical correct option, counts every unanswered question as
incorrect (only answered questions can contribute), and sets
`passed = (correctAnswers x 100 ≥ passingPercentage x numberOfQuestions)`
with the equality case passing: with `passingPercentage = 70` and 10
questions, exactly 7 correct passes and 6 correct fails. -/
theorem finish_scoring (ed : ExamDefinition) (a a2 : Attempt) (now : Nat)
    (effs : List StoreEffect)
    (hstate : a.state = AttemptState.inProgress
      ∨ a.state = AttemptState.timedOut)
    (hfin : finish ed a now = Except.ok (a2, effs)) :
    a2.correctAnswers
        = a.answers.countP (fun p => isAnswerCorrect ed a p.1 p.2)
    ∧ a2.correctAnswers ≤ a.answers.length
    ∧ a2.passed = some (decide (ed.passingPercentage * ed.questions.length
        ≤ a2.correctAnswers * 100))
    ∧ (ed.passingPercentage = 70 → ed.questions.length = 10 →
        (a2.correctAnswers = 7 → a2.passed = some true)
        ∧ (a2.correctAnswers = 6 → a2.passed = some false)) := by
  have hs : a.state ≠ AttemptState.completed := by
    rcases hstate with h | h <;> simp [h]
  have g := finish_ok_inv hs hfin
  injection g with ha2 heff
  subst ha2
  refine ⟨rfl, ?_, rfl, ?_⟩
  · simpa [finalizeAttempt, countCorrect] using
      List.countP_le_length (fun p : Nat × Nat => isAnswerCorrect ed a p.1 p.2)
  · intro h70 h10
    constructor
    · intro hc
      simp only [finalizeAttempt] at hc ⊢
      rw [hc, computePassed, h70, h10]
      decide
    · intro hc
      simp only [finalizeAttempt] at hc ⊢
      rw [hc, computePassed, h70, h10]
      decide

/-- Witness for C2 at the sample exam: finalizing a fresh attempt. -/
theorem finish_scoring_witness :
    (finalizeAttempt sampleExam startA 99).correctAnswers
        = startA.answers.countP
            (fun p => isAnswerCorrect sampleExam startA p.1 p.2)
    ∧ (finalizeAttempt sampleExam startA 99).correctAnswers
        ≤ startA.answers.length
    ∧ (finalizeAttempt sampleExam startA 99).passed
        = some (decide (sampleExam.passingPercentage
            * sampleExam.questions.length
            ≤ (finalizeAttempt sampleExam startA 99).correctAnswers * 100))
    ∧ (sampleExam.passingPercentage = 70 → sampleExam.questions.length = 10 →
        ((finalizeAttempt sampleExam startA 99).correctAnswers = 7 →
          (finalizeAttempt sampleExam startA 99).passed = some true)
        ∧ ((finalizeAttempt sampleExam startA 99).correctAnswers = 6 →
          (finalizeAttempt sampleExam startA 99).passed = some false)) :=
  finish_scoring sampleExam startA (finalizeAttempt sampleExam startA 99) 99
    [StoreEffect.putAttempt (finalizeAttempt sampleExam startA 99)]
    (Or.inl rfl) rfl

/-- C5: `finish` is idempotent — once an attempt has been finalized,
finishing it again returns the very same attempt (hence the same
`correctAnswers` and `passed`) and performs no store write. -/
theorem finish_idempotent (ed : ExamDefinition) (a a1 : Attempt)
    (now1 now2 : Nat) (effs : List StoreEffect)
    (h : finish ed a now1 = Except.ok (a1, effs)) :
    finish ed a1 now2 = Except.ok (a1, []) := by
  cases hst : a.state with
  | notStarted => simp [finish, hst] at h
  | completed =>
      simp only [finish, hst] at h
      injection h with hp
      injection hp with h1 h2
      subst h1
      simp [finish, hst]
  | inProgress =>
      simp only [finish, hst] at h
      injection h with hp
      injection hp with h1 h2
      subst h1
      simp [finish, finalizeAttempt]
  | timedOut =>
      simp only [finish, hst] at h
      injection h with hp
      injection hp with h1 h2
      subst h1
      simp [finish, finalizeAttempt]

/-- Witness for C5: a second `finish` on the finalized sample attempt
returns it unchanged with no store write. -/
theorem finish_idempotent_witness :
    finish sampleExam (finalizeAttempt sampleExam startA 99) 123
      = Except.ok (finalizeAttempt sampleExam startA 99, []) :=
  finish_idempotent sampleExam startA (finalizeAttempt sampleExam startA 99)
    99 123 [StoreEffect.putAttempt (finalizeAttempt sampleExam startA 99)] rfl

/-- C7: `evaluate` applies its rules in fixed priority order — whenever
some past attempt has `passed = true`, the verdict is `AlreadyPassed`,
before in-progress attempts or cooldown are even considered. -/
theorem evaluate_alreadyPassed_priority (ed : ExamDefinition) (u e : String)
    (history : List Attempt) (now : Nat)
    (h : ∃ a, a ∈ history ∧ a.passed = some true) :
    evaluate ed u e history now = EligibilityVerdict.alreadyPassed := by
  obtain ⟨a, ha, hp⟩ := h
  unfold evaluate
  rw [if_pos]
  rw [List.any_eq_true]
  exact ⟨a, ha, by simp [hp]⟩

/-- Witness for C7: a passed attempt finalized at time 100 evaluated at
time 110, inside the 60-minute cooldown window, still yields
`AlreadyPassed`. -/
theorem evaluate_alreadyPassed_priority_witness :
    evaluate sampleExam "u" "ex1" [passedAttempt] 110
      = EligibilityVerdict.alreadyPassed :=
  evaluate_alreadyPassed_priority sampleExam "u" "ex1" [passedAttempt] 110
    ⟨passedAttempt, List.mem_singleton.mpr rfl, rfl⟩

/-- Any recruiter written by `addRegisterUsed` has subscription level 4. -/
theorem mem_addRegisterUsed_level4 {r : Recruiter} {d : String}
    (e u uid : String)
    (h : AuthEffect.addUserWithId r d ∈ addRegisterUsed e u uid) :
    r.subscriptionLevel = 4 := by
  simp [addRegisterUsed, addRecruiterAsCandidate] at h
  rw [h.1]
  rfl

/-- C9: every recruiter record created through the auth service — via
`register` or via a first-time Google sign-in in `loginWithGoogle` — is
written with `subscriptionLevel = 4`; account creation never assigns any
other level. -/
theorem auth_created_level4 (r : Recruiter) (d : String) :
    (∀ email username password uid,
      AuthEffect.addUserWithId r d ∈ register email username password uid →
      r.subscriptionLevel = 4)
    ∧ (∀ result existing msg,
      AuthEffect.addUserWithId r d ∈ loginWithGoogle result existing msg →
      r.subscriptionLevel = 4) := by
  constructor
  · intro email username password uid h
    exact mem_addRegisterUsed_level4 email username uid
      (by simpa [register] using h)
  · intro result existing msg h
    cases result with
    | none => simp [loginWithGoogle] at h
    | some gu =>
        cases existing with
        | some r0 => simp [loginWithGoogle] at h
        | none =>
            simp only [loginWithGoogle, List.mem_append] at h
            rcases h with h | h
            · exact mem_addRegisterUsed_level4 _ _ _ h
            · simp at h

/-- Witness for C9: the record written by a concrete `register` call has
subscription level 4. -/
theorem auth_created_level4_witness :
    (mkRegisteredRecruiter "e@x" "usr" "uid1").subscriptionLevel = 4 :=
  (auth_created_level4 (mkRegisteredRecruiter "e@x" "usr" "uid1") "uid1").1
    "e@x" "usr" "pw" "uid1"
    (by simp [register, addRegisterUsed, addRecruiterAsCandidate])

/-- C10: when a recruiter record already exists for the authenticated
uid, `loginWithGoogle` performs no recruiter-store write — no
`addUserWithId` effect at all — and its only effect is navigating to the
`recruiter` route. -/
theorem google_existing_only_navigates (gu : GoogleUser) (r : Recruiter)
    (msg : String) :
    loginWithGoogle (some gu) (some r) msg
        = [AuthEffect.navigate ["recruiter"]]
    ∧ (∀ r2 d,
        AuthEffect.addUserWithId r2 d ∉ loginWithGoogle (some gu) (some r) msg) := by
  refine ⟨rfl, ?_⟩
  intro r2 d hmem
  simp [loginWithGoogle] at hmem

/-- Witness for C10: a concrete returning Google user only triggers
navigation. -/
theorem google_existing_only_navigates_witness :
    loginWithGoogle (some { uid := "g1", email := "g@x", displayName := "G" })
        (some (mkRegisteredRecruiter "g@x" "G" "g1")) "ok"
      = [AuthEffect.navigate ["recruiter"]] :=
  (google_existing_only_navigates
    { uid := "g1", email := "g@x", displayName := "G" }
    (mkRegisteredRecruiter "g@x" "G" "g1") "ok").1

end AITrainer
